import Mathlib

/-!
Verification of the AI move-orchestration core of the ai-chess repository.

This file gives a shallow embedding, in Lean, of the move-generation and
validation pipeline of the repository: the memory store
(src/services/memoryService.ts), the chess-state snapshot
(src/services/chessService.ts), the game-phase classifiers
(src/services/aiService.ts createSystemMessage and the vision-service
determineGamePhase), the strategy planner glue
(src/services/strategyService.ts planStrategy and
src/services/aiService.ts updatePlayerStrategy), and the two
move-fetching entry points (aiService fetchNextMove and the simple PGN
protocol fetchNextMoveSimple), together with theorems settling the frozen
claims about this code.

Modelling conventions:
- JavaScript strings are Lean String; a value that may be null or
  undefined is an Option.  Both null and undefined map to none: every
  place the source distinguishes them (strict equality on promotions)
  also carries a truthiness fallback that makes the collapsed model
  extensionally equal to the source, which is noted at the definition.
- JavaScript string truthiness (null, undefined and "" are falsy) is
  modelled explicitly by optStrTruthy.
- Date.now() timestamps are omitted from the Move record: no claim and
  no branch of the embedded code inspects them.
- The external chess.js engine and the OpenAI transport are
  collaborators outside the repository; functions take their outcomes
  (engine snapshot, oracle response or thrown error) as parameters.
- The memory store is embedded with an explicit heap.  The source
  initialises both colour slots by shallow-spreading one shared
  initialMemory object, so the array-valued fields (moveHistory,
  reflection, pieceActivity) of white, black and initialMemory are the
  same mutable objects, which are only ever mutated in place, never
  reassigned.  ChessMemory therefore stores heap references for those
  three fields and plain values for the fields the source replaces by
  assignment (opening, goal lists, counters, moveEvaluations).
-/

namespace AiChess

/-- Player colour, the source union type of "white" and "black". -/
inductive Color where
  | white
  | black
deriving DecidableEq, Repr

/-- Move record (src/types/index.ts interface Move) without the
Date.now() timestamp, which nothing in the verified code reads.
The source field names from and to are Lean keywords, hence fromSq
and toSq. -/
structure Move where
  fromSq : String
  toSq : String
  promotion : Option String
  piece : String
  color : String
  san : String
deriving DecidableEq, Repr

/-- Unverified candidate move (src/types/index.ts interface
AIFunctionCallResponse): origin, destination, optional promotion. -/
structure AIFunctionCallResponse where
  fromSq : String
  toSq : String
  promotion : Option String
deriving DecidableEq, Repr

/-- Stored candidate evaluation (memoryService.ts interface
MoveEvaluation).  The numeric score is parsed from text in the source;
its value is never branched on by the verified operations, so Int
stands in for the JavaScript number. -/
structure MoveEvaluation where
  move : String
  score : Int
  reasoning : String
deriving DecidableEq, Repr

/-- JavaScript truthiness of a string-or-null-or-undefined value:
null, undefined and the empty string are falsy. -/
def optStrTruthy : Option String → Bool
  | none => false
  | some s => s ≠ ""

/-- Game state snapshot (src/types/index.ts interface GameState). -/
structure GameState where
  fen : String
  pgn : String
  turn : String
  history : List Move
  gameOver : Bool
  checkmate : Bool
  draw : Bool
  inCheck : Bool
  winner : Option String
deriving DecidableEq, Repr

/-- The facts chessService.getGameState reads off the external chess.js
engine: turn, history, and the terminal-status predicates.  chess.js is
an external collaborator; a snapshot stands for its answers at one
point in time. -/
structure EngineSnapshot where
  fen : String
  pgn : String
  turn : String
  history : List Move
  inCheck : Bool
  gameOver : Bool
  checkmate : Bool
  draw : Bool
deriving DecidableEq, Repr

/-- chessService.getGameState (chessService.ts lines 33-59): packages
the engine snapshot and derives the winner.  In checkmate the player
whose turn it is has lost, so winner is the opposite colour; otherwise
winner is null. -/
def getGameState (e : EngineSnapshot) : GameState :=
  { fen := e.fen
    pgn := e.pgn
    turn := e.turn
    history := e.history
    gameOver := e.gameOver
    checkmate := e.checkmate
    draw := e.draw
    inCheck := e.inCheck
    winner := if e.checkmate then some (if e.turn = "w" then "black" else "white") else none }

/-- The game-phase computation inside aiService.createSystemMessage
(aiService.ts lines 169-176): phase starts as "opening", becomes
"endgame" when moveCount > 30, else "middlegame" when moveCount > 10,
where moveCount is gameState.history.length. -/
def systemMessageGamePhase (gameState : GameState) : String :=
  if gameState.history.length > 30 then "endgame"
  else if gameState.history.length > 10 then "middlegame"
  else "opening"

/-- visionService determineGamePhase (the function bundled in
memoryService.ts lines 601-612): "opening" when moveCount < 10,
"endgame" when moveCount > 30, else "middlegame". -/
def determineGamePhase (gameState : GameState) : String :=
  if gameState.history.length < 10 then "opening"
  else if gameState.history.length > 30 then "endgame"
  else "middlegame"

/-! ## Memory store (memoryService.ts)

The store keeps one ChessMemory per colour plus the module-level
initialMemory constant.  Array-valued fields are heap references, so
the shallow-spread initialisation of the source (white and black both
spread initialMemory, copying the references to the same arrays) is
reproduced exactly. -/

/-- The mutable heap: the string arrays (reflection), move arrays
(moveHistory) and string-to-number records (pieceActivity) that exist
in the JavaScript module, indexed by allocation order. -/
structure Heap where
  strArrays : List (List String)
  moveArrays : List (List Move)
  actRecords : List (List (String × Nat))
deriving DecidableEq, Repr

/-- Read a string array from the heap (a dangling reference reads as
empty; references in this program are always valid). -/
def Heap.getStr (h : Heap) (r : Nat) : List String :=
  h.strArrays.getD r []

/-- Overwrite a string array in the heap in place. -/
def Heap.setStr (h : Heap) (r : Nat) (v : List String) : Heap :=
  { h with strArrays := h.strArrays.set r v }

/-- Read a move array from the heap. -/
def Heap.getMoves (h : Heap) (r : Nat) : List Move :=
  h.moveArrays.getD r []

/-- Overwrite a move array in the heap in place. -/
def Heap.setMoves (h : Heap) (r : Nat) (v : List Move) : Heap :=
  { h with moveArrays := h.moveArrays.set r v }

/-- Read a pieceActivity record from the heap. -/
def Heap.getAct (h : Heap) (r : Nat) : List (String × Nat) :=
  h.actRecords.getD r []

/-- Overwrite a pieceActivity record in the heap in place. -/
def Heap.setAct (h : Heap) (r : Nat) (v : List (String × Nat)) : Heap :=
  { h with actRecords := h.actRecords.set r v }

/-- Lookup in a JavaScript record modelled as an insertion-ordered
association list. -/
def recGet (rec : List (String × Nat)) (k : String) : Option Nat :=
  (rec.find? (fun p => p.1 == k)).map (fun p => p.2)

/-- Property assignment on a JavaScript record: update the existing
entry in place, or append a new one in insertion order. -/
def recSet (rec : List (String × Nat)) (k : String) (v : Nat) : List (String × Nat) :=
  if rec.any (fun p => p.1 == k) then
    rec.map (fun p => if p.1 == k then (k, v) else p)
  else
    rec ++ [(k, v)]

/-- Per-player memory (memoryService.ts interface ChessMemory).
opening, the goal lists, the update counters and moveEvaluations are
replaced by assignment in the source and are plain values here; the
reflection array, moveHistory array and pieceActivity record are only
ever mutated in place and are heap references here. -/
structure ChessMemory where
  opening : Option String
  shortTermGoals : List String
  longTermGoals : List String
  lastUpdatedShortTerm : Int
  lastUpdatedLongTerm : Int
  reflectionRef : Nat
  moveHistoryRef : Nat
  pieceActivityRef : Nat
  moveEvaluations : List MoveEvaluation
deriving DecidableEq, Repr

/-- The whole state of the memoryService module: the heap, the
module-level initialMemory constant and the two colour slots. -/
structure MemoryStore where
  heap : Heap
  initialMemory : ChessMemory
  white : ChessMemory
  black : ChessMemory
deriving DecidableEq, Repr

/-- memoryStore[color] of the source. -/
def MemoryStore.mem (s : MemoryStore) : Color → ChessMemory
  | Color.white => s.white
  | Color.black => s.black

/-- Assignment memoryStore[color] = m of the source. -/
def MemoryStore.setMem (s : MemoryStore) : Color → ChessMemory → MemoryStore
  | Color.white, m => { s with white := m }
  | Color.black, m => { s with black := m }

/-- The initialMemory constant (memoryService.ts lines 40-50): empty
everything, with its three array fields freshly allocated at heap
slots 0. -/
def initialMemoryDef : ChessMemory :=
  { opening := none
    shortTermGoals := []
    longTermGoals := []
    lastUpdatedShortTerm := 0
    lastUpdatedLongTerm := 0
    reflectionRef := 0
    moveHistoryRef := 0
    pieceActivityRef := 0
    moveEvaluations := [] }

/-- Module initialisation (memoryService.ts lines 40-56): initialMemory
allocates one empty array of each kind, then white and black are
shallow spreads of initialMemory, so all three ChessMemory records
hold references to the same heap slots. -/
def initMemoryStore : MemoryStore :=
  { heap := { strArrays := [[]], moveArrays := [[]], actRecords := [[]] }
    initialMemory := initialMemoryDef
    white := initialMemoryDef
    black := initialMemoryDef }

/-- memoryService.updateMoveHistory (lines 64-70): push the move onto
the moveHistory array of the colour and bump the pieceActivity counter
keyed by piece concatenated with origin square. -/
def updateMoveHistory (color : Color) (move : Move) (s : MemoryStore) : MemoryStore :=
  let m := s.mem color
  let h1 := s.heap.setMoves m.moveHistoryRef (s.heap.getMoves m.moveHistoryRef ++ [move])
  let pieceId := move.piece ++ move.fromSq
  let act := h1.getAct m.pieceActivityRef
  let h2 := h1.setAct m.pieceActivityRef (recSet act pieceId ((recGet act pieceId).getD 0 + 1))
  { s with heap := h2 }

/-- Is the character one of the delimiters of the split regex in
memoryService.setOpening. -/
def isOpeningDelim (ch : Char) : Bool :=
  ch == '.' || ch == ',' || ch == ':'

/-- Remove leading and trailing whitespace from a character list, the
effect of the JavaScript trim call. -/
def trimChars (cs : List Char) : List Char :=
  ((cs.dropWhile Char.isWhitespace).reverse.dropWhile Char.isWhitespace).reverse

/-- opening.split on the delimiter class, first piece, trimmed
(memoryService.ts line 80): the prefix of the string before the first
period, comma or colon, with surrounding whitespace removed. -/
def extractOpeningName (s : String) : String :=
  String.mk (trimChars (s.toList.takeWhile (fun ch => !(isOpeningDelim ch))))

/-- memoryService.setOpening (lines 78-82): store the extracted opening
name in the colour slot. -/
def setOpening (color : Color) (opening : String) (s : MemoryStore) : MemoryStore :=
  s.setMem color { s.mem color with opening := some (extractOpeningName opening) }

/-- memoryService.updateShortTermGoals (lines 91-95): replace the list
with the first three goals and stamp the move number. -/
def updateShortTermGoals (color : Color) (goals : List String) (moveNumber : Int)
    (s : MemoryStore) : MemoryStore :=
  s.setMem color
    { s.mem color with shortTermGoals := goals.take 3, lastUpdatedShortTerm := moveNumber }

/-- memoryService.updateLongTermGoals (lines 104-108): replace the list
with the first three goals and stamp the move number. -/
def updateLongTermGoals (color : Color) (goals : List String) (moveNumber : Int)
    (s : MemoryStore) : MemoryStore :=
  s.setMem color
    { s.mem color with longTermGoals := goals.take 3, lastUpdatedLongTerm := moveNumber }

/-- memoryService.addReflection (lines 116-123): push the reflection,
then if the array now holds more than five entries shift off the
oldest one. -/
def addReflection (color : Color) (reflection : String) (s : MemoryStore) : MemoryStore :=
  let m := s.mem color
  let arr := s.heap.getStr m.reflectionRef ++ [reflection]
  let arr2 := if arr.length > 5 then arr.tail else arr
  { s with heap := s.heap.setStr m.reflectionRef arr2 }

/-- memoryService.shouldUpdateShortTermGoals (lines 132-134). -/
def shouldUpdateShortTermGoals (color : Color) (currentMoveNumber : Int)
    (s : MemoryStore) : Bool :=
  currentMoveNumber - (s.mem color).lastUpdatedShortTerm ≥ 3

/-- memoryService.shouldUpdateLongTermGoals (lines 143-145). -/
def shouldUpdateLongTermGoals (color : Color) (currentMoveNumber : Int)
    (s : MemoryStore) : Bool :=
  currentMoveNumber - (s.mem color).lastUpdatedLongTerm ≥ 6

/-- memoryService.storeMoveEvaluations (lines 161-163): keep the first
three evaluations. -/
def storeMoveEvaluations (color : Color) (evaluations : List MoveEvaluation)
    (s : MemoryStore) : MemoryStore :=
  s.setMem color { s.mem color with moveEvaluations := evaluations.take 3 }

/-- memoryService.resetMemory (lines 221-224): both colour slots are
reassigned to shallow spreads of initialMemory.  The spread copies the
heap references initialMemory holds, so the heap itself is untouched. -/
def resetMemory (s : MemoryStore) : MemoryStore :=
  { s with white := s.initialMemory, black := s.initialMemory }

/-- What getMemory lets a caller observe for one colour, with the heap
references dereferenced. -/
structure MemoryView where
  opening : Option String
  shortTermGoals : List String
  longTermGoals : List String
  lastUpdatedShortTerm : Int
  lastUpdatedLongTerm : Int
  reflection : List String
  moveHistory : List Move
  pieceActivity : List (String × Nat)
  moveEvaluations : List MoveEvaluation
deriving DecidableEq, Repr

/-- memoryService.getMemory for a colour, reading the shared arrays
through the references the colour slot holds. -/
def readMemory (s : MemoryStore) (color : Color) : MemoryView :=
  let m := s.mem color
  { opening := m.opening
    shortTermGoals := m.shortTermGoals
    longTermGoals := m.longTermGoals
    lastUpdatedShortTerm := m.lastUpdatedShortTerm
    lastUpdatedLongTerm := m.lastUpdatedLongTerm
    reflection := s.heap.getStr m.reflectionRef
    moveHistory := s.heap.getMoves m.moveHistoryRef
    pieceActivity := s.heap.getAct m.pieceActivityRef
    moveEvaluations := m.moveEvaluations }

/-- One call into the memoryService mutators. -/
inductive MemOp where
  | updMoveHistory (color : Color) (move : Move)
  | setOpen (color : Color) (opening : String)
  | updShort (color : Color) (goals : List String) (moveNumber : Int)
  | updLong (color : Color) (goals : List String) (moveNumber : Int)
  | addRefl (color : Color) (reflection : String)
  | storeEvals (color : Color) (evaluations : List MoveEvaluation)
  | reset
deriving DecidableEq, Repr

/-- Apply one memoryService call to the store. -/
def applyMemOp : MemOp → MemoryStore → MemoryStore
  | MemOp.updMoveHistory c mv, s => updateMoveHistory c mv s
  | MemOp.setOpen c o, s => setOpening c o s
  | MemOp.updShort c g n, s => updateShortTermGoals c g n s
  | MemOp.updLong c g n, s => updateLongTermGoals c g n s
  | MemOp.addRefl c r, s => addReflection c r s
  | MemOp.storeEvals c e, s => storeMoveEvaluations c e s
  | MemOp.reset, s => resetMemory s

/-- Run a sequence of memoryService calls left to right. -/
def applyMemOps (ops : List MemOp) (s : MemoryStore) : MemoryStore :=
  ops.foldl (fun st op => applyMemOp op st) s

/-! ## Move validation and the two fetch paths -/

/-- The legality test of aiService.fetchNextMove (lines 422-426): the
candidate matches a legal move when origin and destination squares are
strictly equal and the promotions are strictly equal, or both
promotions are falsy.  In the source the strict comparison runs over
string-or-null-or-undefined; collapsing null and undefined to none is
extensionally faithful because the only pair the collapse conflates
(null against undefined) is also accepted by the both-falsy fallback. -/
def isLegalMatchAdvanced (cand : AIFunctionCallResponse) (legalMove : Move) : Bool :=
  cand.fromSq == legalMove.fromSq && cand.toSq == legalMove.toSq &&
    (cand.promotion == legalMove.promotion ||
      (!(optStrTruthy cand.promotion) && !(optStrTruthy legalMove.promotion)))

/-- The legality test of strategyService fetchNextMoveSimple (lines
413-417): origin and destination equal, and if the candidate carries a
truthy promotion the legal move must carry the same one, otherwise the
legal move must carry a falsy promotion. -/
def isLegalMatchSimple (cand : AIFunctionCallResponse) (legalMove : Move) : Bool :=
  cand.fromSq == legalMove.fromSq && cand.toSq == legalMove.toSq &&
    (if optStrTruthy cand.promotion then legalMove.promotion == cand.promotion
     else !(optStrTruthy legalMove.promotion))

/-- Placeholder element for List.getD on the legal-move list; every
read is guarded by an in-bounds index. -/
def dummyMove : Move :=
  { fromSq := "", toSq := "", promotion := none, piece := "", color := "", san := "" }

/-- The from-to-promotion triple of a legal move, as the fallback
branches of both fetch paths return it. -/
def tripleOf (legalMove : Move) : AIFunctionCallResponse :=
  { fromSq := legalMove.fromSq, toSq := legalMove.toSq, promotion := legalMove.promotion }

/-- Outcome of the single oracle interaction of aiService.fetchNextMove:
either some step inside the try block threw (transport failure, or the
JSON.parse of a structured function call), or a response was obtained
and the protocol-specific extraction produced an optional candidate
plus the message content used as analysis text.  A null candidate
covers both an absent function call and an unparseable o-series
free-text reply, whose inner JSON.parse failure is swallowed. -/
inductive OracleOutcome where
  | throws
  | responds (cand : Option AIFunctionCallResponse) (analysis : String)
deriving DecidableEq, Repr

/-- The single-letter colour tag the source computes for the memory
record of an accepted candidate. -/
def colorLetter : Color → String
  | Color.white => "w"
  | Color.black => "b"

/-- The random-fallback block of aiService.fetchNextMove, which the
source spells out twice verbatim apart from the analysis message: once
inside the try block (lines 448-459, message "Random move selected
(fallback).") and once inside the catch block (lines 466-479, message
"Error occurred. Random move selected.").  With legal moves available
it records a random legal move into memory and returns its triple with
the message; with none it throws: inside the try block the thrown "No
legal moves available" error lands in the catch block, which re-reads
the same empty list and rethrows, so either way the call errors. -/
def randomFallback (playerColor : Color) (legalMoves : List Move) (randIdx : Nat)
    (msg : String) (store : MemoryStore) :
    Except Unit ((AIFunctionCallResponse × String) × MemoryStore) :=
  if legalMoves.length > 0 then
    Except.ok ((tripleOf (legalMoves.getD (randIdx % legalMoves.length) dummyMove), msg),
      updateMoveHistory playerColor (legalMoves.getD (randIdx % legalMoves.length) dummyMove) store)
  else Except.error ()

/-- aiService.fetchNextMove (lines 277-483), after the strategy update
and prompt construction, as a function of the legal-move list computed
from the rules authority, the oracle outcome, the random index drawn
for the fallback, and the memory store.  Paths:
- accepted candidate (truthy from and to, and matching a legal move):
  recorded into memory with placeholder piece and san, returned with
  the oracle analysis;
- otherwise the duplicated random-fallback block runs, with the
  catch-block message when the oracle threw and the in-try message for
  a null, square-less or illegal candidate. -/
def fetchNextMove (playerColor : Color) (legalMoves : List Move)
    (oracle : OracleOutcome) (randIdx : Nat) (store : MemoryStore) :
    Except Unit ((AIFunctionCallResponse × String) × MemoryStore) :=
  match oracle with
  | OracleOutcome.throws =>
      randomFallback playerColor legalMoves randIdx "Error occurred. Random move selected." store
  | OracleOutcome.responds cand analysis =>
      match cand with
      | some move =>
          if move.fromSq ≠ "" ∧ move.toSq ≠ "" then
            if legalMoves.any (fun legalMove => isLegalMatchAdvanced move legalMove) then
              Except.ok ((move, analysis),
                updateMoveHistory playerColor
                  { fromSq := move.fromSq, toSq := move.toSq, promotion := move.promotion,
                    piece := "unknown", color := colorLetter playerColor, san := "unknown" }
                  store)
            else
              randomFallback playerColor legalMoves randIdx "Random move selected (fallback)." store
          else
            randomFallback playerColor legalMoves randIdx "Random move selected (fallback)." store
      | none =>
          randomFallback playerColor legalMoves randIdx "Random move selected (fallback)." store

/-- Outcome of one attempt of the simple PGN protocol: the API call (or
the empty-response check) threw with a message, or a response arrived
and extractMoveFromResponse produced an optional candidate.  The
PGN-token extraction itself is upstream of the validation under
scrutiny and is abstracted into the optional candidate. -/
inductive SimpleOutcome where
  | throws (message : String)
  | extracted (cand : Option AIFunctionCallResponse)
deriving DecidableEq, Repr

/-- Capitalised colour name, playerColor with the first letter
upper-cased as in the simple-path analysis string. -/
def capColor : Color → String
  | Color.white => "White"
  | Color.black => "Black"

/-- The success analysis string of fetchNextMoveSimple (line 441). -/
def simpleSuccessAnalysis (playerColor : Color) (move : AIFunctionCallResponse)
    (matching : Option Move) : String :=
  capColor playerColor ++ " plays " ++
    (match matching with
     | some legalMove => legalMove.san
     | none => move.fromSq ++ "-" ++ move.toSq) ++
    (match move.promotion with
     | some p => if p ≠ "" then " (promotes to " ++ p.toUpper ++ ")" else ""
     | none => "")

/-- The lastError text recorded when an extracted move fails the
legality test (fetchNextMoveSimple line 420). -/
def simpleIllegalMsg (move : AIFunctionCallResponse) : String :=
  "Extracted move " ++ move.fromSq ++ "-" ++ move.toSq ++
    (match move.promotion with
     | some p => if p ≠ "" then " (=" ++ p ++ ")" else ""
     | none => "") ++ " is not legal"

/-- The retry loop of fetchNextMoveSimple (lines 349-457): one list
element per attempt.  An attempt fails, updating lastError, when the
legal-move list is empty (the in-try throw), the call throws, the
extraction yields nothing, or the extracted move is illegal; the first
legal extracted move returns with its analysis.  Returns the result or
none together with the final lastError. -/
def simpleLoop (playerColor : Color) (legalMoves : List Move) :
    List SimpleOutcome → String → Option (AIFunctionCallResponse × String) × String
  | [], lastError => (none, lastError)
  | outcome :: rest, lastError =>
      if legalMoves.length = 0 then
        simpleLoop playerColor legalMoves rest "No legal moves available"
      else
        match outcome with
        | SimpleOutcome.throws msg => simpleLoop playerColor legalMoves rest msg
        | SimpleOutcome.extracted none =>
            simpleLoop playerColor legalMoves rest
              "Could not extract valid move from AI response"
        | SimpleOutcome.extracted (some move) =>
            if legalMoves.any (fun legalMove => isLegalMatchSimple move legalMove) then
              let matching := legalMoves.find? (fun legalMove => isLegalMatchSimple move legalMove)
              (some (move, simpleSuccessAnalysis playerColor move matching), lastError)
            else
              simpleLoop playerColor legalMoves rest (simpleIllegalMsg move)

/-- strategyService fetchNextMoveSimple (lines 341-477): run the three
attempts, then on failure fall back to a random legal move with the
warning analysis, and throw only when even the fallback finds no legal
move.  The position does not change between attempts, so one
legal-move list serves all reads. -/
def fetchNextMoveSimple (playerColor : Color) (legalMoves : List Move)
    (outcomes : List SimpleOutcome) (randIdx : Nat) :
    Except Unit (AIFunctionCallResponse × String) :=
  match simpleLoop playerColor legalMoves (outcomes.take 3) "" with
  | (some result, _) => Except.ok result
  | (none, lastError) =>
      if legalMoves.length > 0 then
        Except.ok (tripleOf (legalMoves.getD (randIdx % legalMoves.length) dummyMove),
          "⚠️ AI failed after 3 attempts (" ++ lastError ++ "). Fallback random move: " ++
            (legalMoves.getD (randIdx % legalMoves.length) dummyMove).san)
      else Except.error ()

/-- The invalid-oracle cases of the advanced path named by the spec:
the call threw, the candidate is null (absent function call or
unparseable free text), the candidate lacks a truthy origin or
destination, or the candidate matches no legal move. -/
def oracleInvalid (legalMoves : List Move) : OracleOutcome → Prop
  | OracleOutcome.throws => True
  | OracleOutcome.responds none _ => True
  | OracleOutcome.responds (some move) _ =>
      move.fromSq = "" ∨ move.toSq = "" ∨
        legalMoves.any (fun legalMove => isLegalMatchAdvanced move legalMove) = false

/-- The analysis message the advanced fallback attaches: the catch-block
text when the oracle threw, the in-try text otherwise. -/
def fallbackMsg : OracleOutcome → String
  | OracleOutcome.throws => "Error occurred. Random move selected."
  | OracleOutcome.responds _ _ => "Random move selected (fallback)."

/-- One attempt of the simple path fails to produce a committed move:
the call threw, nothing was extracted, or the extracted move matches
no legal move. -/
def simpleAttemptFails (legalMoves : List Move) : SimpleOutcome → Prop
  | SimpleOutcome.throws _ => True
  | SimpleOutcome.extracted none => True
  | SimpleOutcome.extracted (some move) =>
      legalMoves.any (fun legalMove => isLegalMatchSimple move legalMove) = false

/-! ## Strategy planning (strategyService.planStrategy and
aiService.updatePlayerStrategy) -/

/-- The record planStrategy resolves with (strategyService.ts lines
134-142): optional opening, goal lists and a reflection string. -/
structure StrategyResult where
  opening : Option String
  shortTermGoals : List String
  longTermGoals : List String
  reflection : String
deriving DecidableEq, Repr

/-- The result the catch block of planStrategy returns on any failure
(strategyService.ts lines 182-189): no opening, empty goal lists, and
a reflection announcing the error. -/
def errorStrategyResult : StrategyResult :=
  { opening := none
    shortTermGoals := []
    longTermGoals := []
    reflection := "Error in strategic planning. Proceeding with existing strategy." }

/-- strategyService.planStrategy (lines 134-190) as a function of the
outcome of its try block: the block either throws somewhere (the API
call, or anything before the return) or completes with the parsed
strategy, the value of parseStrategyResponse on the response content.
parseStrategyResponse is a total regex scan, so the parsed result
stands in for it; any thrown failure lands in the catch block. -/
def planStrategy (tryOutcome : Except Unit StrategyResult) : StrategyResult :=
  match tryOutcome with
  | Except.ok parsed => parsed
  | Except.error _ => errorStrategyResult

/-- aiService.updatePlayerStrategy (lines 229-263): run planStrategy,
then write back selectively.  The opening is stored only when the
strategy carries a truthy opening and the colour has no truthy opening
in memory or fewer than ten half-moves were played; goal lists are
stored only when non-empty, stamped with ceil of half the half-move
count; a truthy reflection is appended.  The surrounding try/catch
absorbs every error, so the function is total on the store. -/
def updatePlayerStrategy (playerColor : Color) (moveCount : Nat)
    (tryOutcome : Except Unit StrategyResult) (s : MemoryStore) : MemoryStore :=
  let playerMoveCount : Int := ((moveCount + 1) / 2 : Nat)
  let strategy := planStrategy tryOutcome
  let s1 :=
    match strategy.opening with
    | some o =>
        if o ≠ "" ∧ (optStrTruthy ((s.mem playerColor).opening) = false ∨ moveCount < 10) then
          setOpening playerColor o s
        else s
    | none => s
  let s2 :=
    if strategy.shortTermGoals.length > 0 then
      updateShortTermGoals playerColor strategy.shortTermGoals playerMoveCount s1
    else s1
  let s3 :=
    if strategy.longTermGoals.length > 0 then
      updateLongTermGoals playerColor strategy.longTermGoals playerMoveCount s2
    else s2
  if strategy.reflection ≠ "" then addReflection playerColor strategy.reflection s3 else s3

/-- Goal-list bounds for one memory record. -/
def goalsBounded (m : ChessMemory) : Prop :=
  m.shortTermGoals.length ≤ 3 ∧ m.longTermGoals.length ≤ 3

/-- The inductive invariant of the memory store: the module allocates
exactly one reflection array, every record references it, every
reflection array in the heap is capped at five, and every goal list in
the three records is capped at three. -/
def StoreInv (s : MemoryStore) : Prop :=
  s.heap.strArrays.length = 1
  ∧ s.white.reflectionRef = 0 ∧ s.black.reflectionRef = 0 ∧ s.initialMemory.reflectionRef = 0
  ∧ (∀ l ∈ s.heap.strArrays, l.length ≤ 5)
  ∧ goalsBounded s.white ∧ goalsBounded s.black ∧ goalsBounded s.initialMemory

/-! ## Concrete fixtures used by counterexamples and witnesses -/

/-- The white pawn move e2 to e4, as chess.js reports it. -/
def pawnE2E4 : Move :=
  { fromSq := "e2", toSq := "e4", promotion := none, piece := "p", color := "w", san := "e4" }

/-- A white pawn promotion on e8, as chess.js reports it. -/
def promoE7E8 : Move :=
  { fromSq := "e7", toSq := "e8", promotion := some "q", piece := "p", color := "w", san := "e8=Q" }

/-- A game state whose history holds n half-moves; the other fields are
irrelevant to the phase computations. -/
def mkHistoryState (n : Nat) : GameState :=
  { fen := "", pgn := "", turn := "w", history := List.replicate n pawnE2E4,
    gameOver := false, checkmate := false, draw := false, inCheck := false, winner := none }

/-- A successful planner outcome carrying only an opening name. -/
def plannerResult (name : String) : Except Unit StrategyResult :=
  Except.ok { opening := some name, shortTermGoals := [], longTermGoals := [], reflection := "" }

/-- An engine snapshot in which white to move stands checkmated. -/
def mateSnapshot : EngineSnapshot :=
  { fen := "", pgn := "", turn := "w", history := [],
    inCheck := true, gameOver := true, checkmate := true, draw := false }

/-! ## Theorems for the claims -/

/-- C3: for every candidate and every legal move whose promotion fields
take the values the system produces (absent, null, or a non-empty
piece letter; the empty string never arises from chess.js nor from the
extraction regexes), both legality tests hold exactly when the origin
squares, destination squares and promotions agree, with an absent
candidate promotion agreeing only with an absent legal promotion. -/
theorem fetchNextMove_promotion_equality (cand : AIFunctionCallResponse) (legalMove : Move)
    (hc : cand.promotion ≠ some "") (hl : legalMove.promotion ≠ some "") :
    (isLegalMatchAdvanced cand legalMove = true ↔
      (cand.fromSq = legalMove.fromSq ∧ cand.toSq = legalMove.toSq ∧
        cand.promotion = legalMove.promotion))
    ∧ (isLegalMatchSimple cand legalMove = true ↔
      (cand.fromSq = legalMove.fromSq ∧ cand.toSq = legalMove.toSq ∧
        cand.promotion = legalMove.promotion)) := by
  unfold isLegalMatchAdvanced isLegalMatchSimple
  rcases hcp : cand.promotion with _ | p <;> rcases hlp : legalMove.promotion with _ | q <;>
    simp_all [optStrTruthy]
  constructor
  · constructor
    · rintro ⟨⟨h1, h2⟩, h3⟩
      exact ⟨h1, h2, h3⟩
    · rintro ⟨h1, h2, h3⟩
      exact ⟨⟨h1, h2⟩, h3⟩
  · constructor
    · rintro ⟨⟨h1, h2⟩, h3⟩
      exact ⟨h1, h2, h3.symm⟩
    · rintro ⟨h1, h2, h3⟩
      exact ⟨⟨h1, h2⟩, h3.symm⟩

/-- C3 witness: the queen-promotion candidate e7-e8 q matches the legal
queen promotion under both tests. -/
theorem fetchNextMove_promotion_equality_witness :
    isLegalMatchAdvanced { fromSq := "e7", toSq := "e8", promotion := some "q" } promoE7E8 = true ∧
    isLegalMatchSimple { fromSq := "e7", toSq := "e8", promotion := some "q" } promoE7E8 = true :=
  ⟨(fetchNextMove_promotion_equality _ promoE7E8 (by decide) (by decide)).1.mpr
      ⟨rfl, rfl, rfl⟩,
    (fetchNextMove_promotion_equality _ promoE7E8 (by decide) (by decide)).2.mpr
      ⟨rfl, rfl, rfl⟩⟩

/-- C7 counterexample: at exactly ten half-moves the two phase
computations disagree, so the claimed single three-way classification
(opening when the half-move count is at most ten, at every place the
phase is computed) is false: determineGamePhase labels ten half-moves
middlegame while createSystemMessage labels them opening. -/
theorem gamePhase_disagree_at_ten :
    determineGamePhase (mkHistoryState 10) = "middlegame" ∧
    systemMessageGamePhase (mkHistoryState 10) = "opening" :=
  ⟨rfl, rfl⟩

/-- C7 amended: createSystemMessage classifies opening when the
half-move count is at most ten, middlegame when at most thirty, else
endgame; determineGamePhase classifies opening when strictly below
ten, endgame when above thirty, else middlegame; the two agree at
every half-move count except exactly ten. -/
theorem gamePhase_characterisation (gs : GameState) :
    systemMessageGamePhase gs =
      (if gs.history.length ≤ 10 then "opening"
       else if gs.history.length ≤ 30 then "middlegame" else "endgame")
    ∧ determineGamePhase gs =
      (if gs.history.length < 10 then "opening"
       else if gs.history.length ≤ 30 then "middlegame" else "endgame")
    ∧ (gs.history.length ≠ 10 → determineGamePhase gs = systemMessageGamePhase gs) := by
  unfold systemMessageGamePhase determineGamePhase
  refine ⟨?_, ?_, ?_⟩
  · split_ifs <;> first | rfl | omega
  · split_ifs <;> first | rfl | omega
  · intro h
    split_ifs <;> first | rfl | omega

/-- C7 amended witness: at seven half-moves the two phase computations
agree. -/
theorem gamePhase_characterisation_witness :
    determineGamePhase (mkHistoryState 7) = systemMessageGamePhase (mkHistoryState 7) :=
  (gamePhase_characterisation (mkHistoryState 7)).2.2 (by decide)

/-- C8: in every state getGameState returns, the winner is non-null
exactly when checkmate holds, and under checkmate the winner is the
colour opposite to the side to move. -/
theorem getGameState_winner_iff_checkmate (e : EngineSnapshot) :
    ((getGameState e).winner ≠ none ↔ (getGameState e).checkmate = true)
    ∧ ((getGameState e).checkmate = true →
        (getGameState e).winner =
          some (if (getGameState e).turn = "w" then "black" else "white")) := by
  unfold getGameState
  constructor
  · by_cases h : e.checkmate <;> simp [h]
  · intro h
    simp_all

/-- C8 witness: with white to move and checkmate on the board, the
winner is black. -/
theorem getGameState_winner_witness : (getGameState mateSnapshot).winner = some "black" := by
  simpa using (getGameState_winner_iff_checkmate mateSnapshot).2 rfl

/-- The random pick of the fallback block is a member of the legal-move
list whenever the list is non-empty. -/
theorem getD_mod_mem {legalMoves : List Move} (h : 0 < legalMoves.length) (i : Nat) :
    legalMoves.getD (i % legalMoves.length) dummyMove ∈ legalMoves := by
  have hlt : i % legalMoves.length < legalMoves.length := Nat.mod_lt _ h
  rw [List.getD_eq_getElem legalMoves dummyMove hlt]
  exact List.getElem_mem hlt

/-- The triple of a legal move matches that legal move under the
advanced legality test. -/
theorem tripleOf_match_advanced (legalMove : Move) :
    isLegalMatchAdvanced (tripleOf legalMove) legalMove = true := by
  simp [isLegalMatchAdvanced, tripleOf]

/-- The triple of a legal move matches that legal move under the simple
legality test. -/
theorem tripleOf_match_simple (legalMove : Move) :
    isLegalMatchSimple (tripleOf legalMove) legalMove = true := by
  by_cases h : optStrTruthy legalMove.promotion = true <;>
    simp [isLegalMatchSimple, tripleOf, h]

/-- When the random-fallback block returns, it returns the triple of a
member of the legal-move list with the given message, recording that
member into memory. -/
theorem randomFallback_ok {playerColor : Color} {legalMoves : List Move} {randIdx : Nat}
    {msg : String} {store : MemoryStore} {result : AIFunctionCallResponse × String}
    {store' : MemoryStore}
    (h : randomFallback playerColor legalMoves randIdx msg store = Except.ok (result, store')) :
    ∃ lm ∈ legalMoves, result = (tripleOf lm, msg) ∧
      store' = updateMoveHistory playerColor lm store := by
  unfold randomFallback at h
  by_cases hl : legalMoves.length > 0
  · rw [if_pos hl] at h
    simp only [Except.ok.injEq] at h
    exact ⟨legalMoves.getD (randIdx % legalMoves.length) dummyMove, getD_mod_mem hl randIdx,
      (congrArg Prod.fst h).symm, (congrArg Prod.snd h).symm⟩
  · rw [if_neg hl] at h
    exact absurd h (by simp)

/-- When the simple retry loop succeeds, the move it returns matches a
member of the legal-move list under the simple legality test. -/
theorem simpleLoop_some_legal (playerColor : Color) (legalMoves : List Move) :
    ∀ (outs : List SimpleOutcome) (lastError : String) (mv : AIFunctionCallResponse)
      (analysis err : String),
      simpleLoop playerColor legalMoves outs lastError = (some (mv, analysis), err) →
      ∃ lm ∈ legalMoves, isLegalMatchSimple mv lm = true := by
  intro outs
  induction outs with
  | nil =>
      intro lastError mv analysis err h
      simp [simpleLoop] at h
  | cons o rest ih =>
      intro lastError mv analysis err h
      unfold simpleLoop at h
      by_cases hl : legalMoves.length = 0
      · rw [if_pos hl] at h
        exact ih _ _ _ _ h
      · rw [if_neg hl] at h
        rcases o with msg | cand
        · exact ih _ _ _ _ h
        · rcases cand with _ | move
          · exact ih _ _ _ _ h
          · dsimp only at h
            by_cases hany : legalMoves.any (fun legalMove => isLegalMatchSimple move legalMove) = true
            · rw [if_pos hany] at h
              obtain ⟨lm, hmem, hp⟩ := List.any_eq_true.mp hany
              simp only [Prod.mk.injEq, Option.some.injEq] at h
              obtain ⟨⟨e, _⟩, _⟩ := h
              exact ⟨lm, hmem, e ▸ hp⟩
            · rw [if_neg hany] at h
              exact ih _ _ _ _ h

/-- C1: every move either fetch path returns, whether the oracle
candidate was accepted or the random fallback fired, matches a member
of the legal-move list computed by the rules authority just before the
choice, under the legality test of that path; an oracle candidate
matching no legal move is never returned. -/
theorem fetchNextMove_legality (playerColor : Color) (legalMoves : List Move)
    (oracle : OracleOutcome) (outcomes : List SimpleOutcome) (randIdx randIdxS : Nat)
    (store : MemoryStore) (result : AIFunctionCallResponse × String) (store' : MemoryStore)
    (resultS : AIFunctionCallResponse × String) :
    (fetchNextMove playerColor legalMoves oracle randIdx store = Except.ok (result, store') →
      ∃ lm ∈ legalMoves, isLegalMatchAdvanced result.1 lm = true)
    ∧ (fetchNextMoveSimple playerColor legalMoves outcomes randIdxS = Except.ok resultS →
      ∃ lm ∈ legalMoves, isLegalMatchSimple resultS.1 lm = true) := by
  constructor
  · intro h
    unfold fetchNextMove at h
    rcases oracle with _ | ⟨cand, analysis⟩
    · obtain ⟨lm, hmem, he, _⟩ := randomFallback_ok h
      exact ⟨lm, hmem, by rw [congrArg Prod.fst he]; exact tripleOf_match_advanced lm⟩
    · rcases cand with _ | move
      · obtain ⟨lm, hmem, he, _⟩ := randomFallback_ok h
        exact ⟨lm, hmem, by rw [congrArg Prod.fst he]; exact tripleOf_match_advanced lm⟩
      · dsimp only at h
        by_cases h1 : move.fromSq ≠ "" ∧ move.toSq ≠ ""
        · rw [if_pos h1] at h
          by_cases h2 : legalMoves.any (fun legalMove => isLegalMatchAdvanced move legalMove) = true
          · rw [if_pos h2] at h
            obtain ⟨lm, hmem, hp⟩ := List.any_eq_true.mp h2
            simp only [Except.ok.injEq] at h
            have e1 : move = result.1 := congrArg (fun x => x.1.1) h
            exact ⟨lm, hmem, e1 ▸ hp⟩
          · rw [if_neg h2] at h
            obtain ⟨lm, hmem, he, _⟩ := randomFallback_ok h
            exact ⟨lm, hmem, by rw [congrArg Prod.fst he]; exact tripleOf_match_advanced lm⟩
        · rw [if_neg h1] at h
          obtain ⟨lm, hmem, he, _⟩ := randomFallback_ok h
          exact ⟨lm, hmem, by rw [congrArg Prod.fst he]; exact tripleOf_match_advanced lm⟩
  · intro h
    unfold fetchNextMoveSimple at h
    rcases hout : simpleLoop playerColor legalMoves (outcomes.take 3) "" with ⟨res?, lastError⟩
    rw [hout] at h
    rcases res? with _ | res
    · dsimp only at h
      by_cases hl : legalMoves.length > 0
      · rw [if_pos hl] at h
        simp only [Except.ok.injEq] at h
        refine ⟨legalMoves.getD (randIdxS % legalMoves.length) dummyMove,
          getD_mod_mem hl randIdxS, ?_⟩
        rw [← congrArg Prod.fst h]
        exact tripleOf_match_simple _
      · rw [if_neg hl] at h
        exact absurd h (by simp)
    · rcases res with ⟨mv, analysis⟩
      simp only [Except.ok.injEq] at h
      obtain ⟨lm, hmem, hp⟩ := simpleLoop_some_legal playerColor legalMoves _ _ _ _ _ hout
      have e1 : mv = resultS.1 := congrArg Prod.fst h
      exact ⟨lm, hmem, e1 ▸ hp⟩

/-- C1 witness: with one legal move e2-e4 and an oracle throwing on the
advanced path and yielding nothing on the simple path, the returned
moves match a member of the legal list. -/
theorem fetchNextMove_legality_witness :
    ∃ lm ∈ [pawnE2E4], isLegalMatchAdvanced (tripleOf pawnE2E4) lm = true :=
  (fetchNextMove_legality Color.white [pawnE2E4] OracleOutcome.throws [] 0 0 initMemoryStore
    (tripleOf pawnE2E4, "Error occurred. Random move selected.")
    (updateMoveHistory Color.white pawnE2E4 initMemoryStore) (tripleOf pawnE2E4, "")).1 (by rfl)

/-- With legal moves available the random-fallback block commits the
random pick, a member of the legal-move list. -/
theorem randomFallback_nonempty (playerColor : Color) (legalMoves : List Move) (randIdx : Nat)
    (msg : String) (store : MemoryStore) (h : legalMoves ≠ []) :
    ∃ lm ∈ legalMoves, randomFallback playerColor legalMoves randIdx msg store =
      Except.ok ((tripleOf lm, msg), updateMoveHistory playerColor lm store) := by
  have hl : legalMoves.length > 0 := List.length_pos.mpr h
  exact ⟨legalMoves.getD (randIdx % legalMoves.length) dummyMove, getD_mod_mem hl randIdx,
    by unfold randomFallback; rw [if_pos hl]⟩

/-- The random-fallback block errors exactly when the legal-move list
is empty. -/
theorem randomFallback_error_iff (playerColor : Color) (legalMoves : List Move) (randIdx : Nat)
    (msg : String) (store : MemoryStore) :
    (∃ e, randomFallback playerColor legalMoves randIdx msg store = Except.error e) ↔
      legalMoves = [] := by
  unfold randomFallback
  by_cases hl : legalMoves.length > 0
  · rw [if_pos hl]
    constructor
    · rintro ⟨e, he⟩
      exact absurd he (by simp)
    · intro hnil
      subst hnil
      simp at hl
  · rw [if_neg hl]
    have hnil : legalMoves = [] := List.length_eq_zero.mp (Nat.eq_zero_of_not_pos hl)
    simp [hnil]

/-- Every attempt fails against an empty legal-move list. -/
theorem simpleAttemptFails_nil (o : SimpleOutcome) : simpleAttemptFails [] o := by
  rcases o with _ | c
  · trivial
  · rcases c with _ | mv
    · trivial
    · rfl

/-- If every supplied attempt fails, the simple retry loop produces no
move. -/
theorem simpleLoop_fails (playerColor : Color) (legalMoves : List Move) :
    ∀ (outs : List SimpleOutcome) (lastError : String),
      (∀ o ∈ outs, simpleAttemptFails legalMoves o) →
      (simpleLoop playerColor legalMoves outs lastError).1 = none := by
  intro outs
  induction outs with
  | nil =>
      intro lastError _
      rfl
  | cons o rest ih =>
      intro lastError hfail
      have hrest : ∀ x ∈ rest, simpleAttemptFails legalMoves x :=
        fun x hx => hfail x (List.mem_cons_of_mem o hx)
      unfold simpleLoop
      by_cases hl : legalMoves.length = 0
      · rw [if_pos hl]
        exact ih _ hrest
      · rw [if_neg hl]
        rcases o with msg | cand
        · exact ih _ hrest
        · rcases cand with _ | move
          · exact ih _ hrest
          · dsimp only
            have hany := hfail (SimpleOutcome.extracted (some move)) (List.mem_cons_self _ _)
            simp only [simpleAttemptFails] at hany
            rw [if_neg (by simp [hany])]
            exact ih _ hrest

/-- C2: when the oracle yields a null candidate, an unparseable
response, an illegal candidate, or the call throws, and legal moves
remain, both fetch paths still return exactly one move drawn from the
legal-move list together with the fallback analysis string, without
throwing; each path throws exactly when the legal-move list is
empty. -/
theorem fetchNextMove_fallback_liveness (playerColor : Color) (legalMoves : List Move)
    (oracle : OracleOutcome) (outcomes : List SimpleOutcome) (randIdx randIdxS : Nat)
    (store : MemoryStore) :
    (oracleInvalid legalMoves oracle → legalMoves ≠ [] →
      ∃ lm ∈ legalMoves,
        fetchNextMove playerColor legalMoves oracle randIdx store =
          Except.ok ((tripleOf lm, fallbackMsg oracle), updateMoveHistory playerColor lm store))
    ∧ ((∃ e, fetchNextMove playerColor legalMoves oracle randIdx store = Except.error e) ↔
        legalMoves = [])
    ∧ ((∀ o ∈ outcomes.take 3, simpleAttemptFails legalMoves o) → legalMoves ≠ [] →
      ∃ lm ∈ legalMoves, ∃ lastError : String,
        fetchNextMoveSimple playerColor legalMoves outcomes randIdxS =
          Except.ok (tripleOf lm,
            "⚠️ AI failed after 3 attempts (" ++ lastError ++ "). Fallback random move: " ++
              lm.san))
    ∧ ((∃ e, fetchNextMoveSimple playerColor legalMoves outcomes randIdxS = Except.error e) ↔
        legalMoves = []) := by
  refine ⟨?_, ?_, ?_, ?_⟩
  · intro hInv hne
    rcases oracle with _ | ⟨cand, analysis⟩
    · exact randomFallback_nonempty playerColor legalMoves randIdx _ store hne
    · rcases cand with _ | move
      · exact randomFallback_nonempty playerColor legalMoves randIdx _ store hne
      · rcases hInv with hf | ht | hany
        · obtain ⟨lm, hmem, heq⟩ :=
            randomFallback_nonempty playerColor legalMoves randIdx
              "Random move selected (fallback)." store hne
          refine ⟨lm, hmem, ?_⟩
          unfold fetchNextMove
          dsimp only
          rw [if_neg (by simp [hf])]
          exact heq
        · obtain ⟨lm, hmem, heq⟩ :=
            randomFallback_nonempty playerColor legalMoves randIdx
              "Random move selected (fallback)." store hne
          refine ⟨lm, hmem, ?_⟩
          unfold fetchNextMove
          dsimp only
          rw [if_neg (by simp [ht])]
          exact heq
        · obtain ⟨lm, hmem, heq⟩ :=
            randomFallback_nonempty playerColor legalMoves randIdx
              "Random move selected (fallback)." store hne
          refine ⟨lm, hmem, ?_⟩
          unfold fetchNextMove
          dsimp only
          by_cases h1 : move.fromSq ≠ "" ∧ move.toSq ≠ ""
          · rw [if_pos h1, if_neg (by simp [hany])]
            exact heq
          · rw [if_neg h1]
            exact heq
  · rcases oracle with _ | ⟨cand, analysis⟩
    · exact randomFallback_error_iff playerColor legalMoves randIdx _ store
    · rcases cand with _ | move
      · exact randomFallback_error_iff playerColor legalMoves randIdx _ store
      · unfold fetchNextMove
        dsimp only
        by_cases h1 : move.fromSq ≠ "" ∧ move.toSq ≠ ""
        · rw [if_pos h1]
          by_cases h2 : legalMoves.any (fun legalMove => isLegalMatchAdvanced move legalMove) = true
          · rw [if_pos h2]
            constructor
            · rintro ⟨e, he⟩
              exact absurd he (by simp)
            · intro hnil
              subst hnil
              simp at h2
          · rw [if_neg h2]
            exact randomFallback_error_iff playerColor legalMoves randIdx _ store
        · rw [if_neg h1]
          exact randomFallback_error_iff playerColor legalMoves randIdx _ store
  · intro hfail hne
    have hl : legalMoves.length > 0 := List.length_pos.mpr hne
    have hnone := simpleLoop_fails playerColor legalMoves (outcomes.take 3) "" hfail
    rcases hout : simpleLoop playerColor legalMoves (outcomes.take 3) "" with ⟨res?, lastError⟩
    rw [hout] at hnone
    rcases res? with _ | res
    · refine ⟨legalMoves.getD (randIdxS % legalMoves.length) dummyMove,
        getD_mod_mem hl randIdxS, lastError, ?_⟩
      unfold fetchNextMoveSimple
      rw [hout]
      dsimp only
      rw [if_pos hl]
    · simp at hnone
  · unfold fetchNextMoveSimple
    rcases hout : simpleLoop playerColor legalMoves (outcomes.take 3) "" with ⟨res?, lastError⟩
    rcases res? with _ | res
    · dsimp only
      by_cases hl : legalMoves.length > 0
      · rw [if_pos hl]
        constructor
        · rintro ⟨e, he⟩
          exact absurd he (by simp)
        · intro hnil
          subst hnil
          simp at hl
      · rw [if_neg hl]
        have hnil : legalMoves = [] := List.length_eq_zero.mp (Nat.eq_zero_of_not_pos hl)
        simp [hnil]
    · dsimp only
      constructor
      · rintro ⟨e, he⟩
        exact absurd he (by simp)
      · intro hnil
        subst hnil
        have hnone := simpleLoop_fails playerColor [] (outcomes.take 3) ""
          (fun o _ => simpleAttemptFails_nil o)
        rw [hout] at hnone
        simp at hnone

/-- C2 witness: with one legal move and an oracle returning a null
candidate, the advanced path commits the fallback move e2-e4 with the
fallback analysis. -/
theorem fetchNextMove_fallback_liveness_witness :
    ∃ lm ∈ [pawnE2E4],
      fetchNextMove Color.white [pawnE2E4] (OracleOutcome.responds none "no move") 0
          initMemoryStore =
        Except.ok ((tripleOf lm, fallbackMsg (OracleOutcome.responds none "no move")),
          updateMoveHistory Color.white lm initMemoryStore) :=
  (fetchNextMove_fallback_liveness Color.white [pawnE2E4]
    (OracleOutcome.responds none "no move") [] 0 0 initMemoryStore).1 trivial (by decide)

/-- addReflection only touches the heap, so every colour slot record is
unchanged. -/
@[simp] theorem mem_addReflection (c c' : Color) (r : String) (s : MemoryStore) :
    (addReflection c r s).mem c' = s.mem c' := by
  cases c' <;> rfl

/-- updateMoveHistory only touches the heap, so every colour slot
record is unchanged. -/
@[simp] theorem mem_updateMoveHistory (c c' : Color) (mv : Move) (s : MemoryStore) :
    (updateMoveHistory c mv s).mem c' = s.mem c' := by
  cases c' <;> rfl

/-- setOpening leaves the short-term goal list unchanged. -/
@[simp] theorem shortTermGoals_setOpening (c c' : Color) (o : String) (s : MemoryStore) :
    ((setOpening c o s).mem c').shortTermGoals = (s.mem c').shortTermGoals := by
  cases c <;> cases c' <;> rfl

/-- setOpening leaves the long-term goal list unchanged. -/
@[simp] theorem longTermGoals_setOpening (c c' : Color) (o : String) (s : MemoryStore) :
    ((setOpening c o s).mem c').longTermGoals = (s.mem c').longTermGoals := by
  cases c <;> cases c' <;> rfl

/-- setOpening leaves the short-term update stamp unchanged. -/
@[simp] theorem lastShort_setOpening (c c' : Color) (o : String) (s : MemoryStore) :
    ((setOpening c o s).mem c').lastUpdatedShortTerm = (s.mem c').lastUpdatedShortTerm := by
  cases c <;> cases c' <;> rfl

/-- setOpening leaves the long-term update stamp unchanged. -/
@[simp] theorem lastLong_setOpening (c c' : Color) (o : String) (s : MemoryStore) :
    ((setOpening c o s).mem c').lastUpdatedLongTerm = (s.mem c').lastUpdatedLongTerm := by
  cases c <;> cases c' <;> rfl

/-- setOpening stores the extracted opening name in its own colour
slot. -/
@[simp] theorem opening_setOpening_self (c : Color) (o : String) (s : MemoryStore) :
    ((setOpening c o s).mem c).opening = some (extractOpeningName o) := by
  cases c <;> rfl

/-- updateShortTermGoals leaves the opening unchanged. -/
@[simp] theorem opening_updateShortTermGoals (c c' : Color) (g : List String) (n : Int)
    (s : MemoryStore) :
    ((updateShortTermGoals c g n s).mem c').opening = (s.mem c').opening := by
  cases c <;> cases c' <;> rfl

/-- updateShortTermGoals leaves the long-term goal list unchanged. -/
@[simp] theorem longTermGoals_updateShortTermGoals (c c' : Color) (g : List String) (n : Int)
    (s : MemoryStore) :
    ((updateShortTermGoals c g n s).mem c').longTermGoals = (s.mem c').longTermGoals := by
  cases c <;> cases c' <;> rfl

/-- updateShortTermGoals leaves the long-term update stamp unchanged. -/
@[simp] theorem lastLong_updateShortTermGoals (c c' : Color) (g : List String) (n : Int)
    (s : MemoryStore) :
    ((updateShortTermGoals c g n s).mem c').lastUpdatedLongTerm =
      (s.mem c').lastUpdatedLongTerm := by
  cases c <;> cases c' <;> rfl

/-- updateLongTermGoals leaves the opening unchanged. -/
@[simp] theorem opening_updateLongTermGoals (c c' : Color) (g : List String) (n : Int)
    (s : MemoryStore) :
    ((updateLongTermGoals c g n s).mem c').opening = (s.mem c').opening := by
  cases c <;> cases c' <;> rfl

/-- updateLongTermGoals leaves the short-term goal list unchanged. -/
@[simp] theorem shortTermGoals_updateLongTermGoals (c c' : Color) (g : List String) (n : Int)
    (s : MemoryStore) :
    ((updateLongTermGoals c g n s).mem c').shortTermGoals = (s.mem c').shortTermGoals := by
  cases c <;> cases c' <;> rfl

/-- updateLongTermGoals leaves the short-term update stamp unchanged. -/
@[simp] theorem lastShort_updateLongTermGoals (c c' : Color) (g : List String) (n : Int)
    (s : MemoryStore) :
    ((updateLongTermGoals c g n s).mem c').lastUpdatedShortTerm =
      (s.mem c').lastUpdatedShortTerm := by
  cases c <;> cases c' <;> rfl

/-- Whether or not the conditional opening write fires, the short-term
goal list is unchanged. -/
@[simp] theorem shortTermGoals_ite_setOpening (c c' : Color) (o : String) (s : MemoryStore)
    (P : Prop) [Decidable P] :
    (((if P then setOpening c o s else s)).mem c').shortTermGoals =
      (s.mem c').shortTermGoals := by
  split <;> simp

/-- Whether or not the conditional opening write fires, the short-term
stamp is unchanged. -/
@[simp] theorem lastShort_ite_setOpening (c c' : Color) (o : String) (s : MemoryStore)
    (P : Prop) [Decidable P] :
    (((if P then setOpening c o s else s)).mem c').lastUpdatedShortTerm =
      (s.mem c').lastUpdatedShortTerm := by
  split <;> simp

/-- Whether or not the conditional opening write fires, the long-term
goal list is unchanged. -/
@[simp] theorem longTermGoals_ite_setOpening (c c' : Color) (o : String) (s : MemoryStore)
    (P : Prop) [Decidable P] :
    (((if P then setOpening c o s else s)).mem c').longTermGoals =
      (s.mem c').longTermGoals := by
  split <;> simp

/-- Whether or not the conditional opening write fires, the long-term
stamp is unchanged. -/
@[simp] theorem lastLong_ite_setOpening (c c' : Color) (o : String) (s : MemoryStore)
    (P : Prop) [Decidable P] :
    (((if P then setOpening c o s else s)).mem c').lastUpdatedLongTerm =
      (s.mem c').lastUpdatedLongTerm := by
  split <;> simp

/-- C4: when the planner result carries a truthy opening,
updatePlayerStrategy stores the extracted opening name exactly when
the colour has no truthy opening in memory or the half-move count is
below ten, and otherwise leaves the stored opening untouched; in
particular a stored opening is overwritten at half-move count 8 but
not at 12. -/
theorem updatePlayerStrategy_opening_lock (playerColor : Color) (moveCount : Nat)
    (tryOutcome : Except Unit StrategyResult) (s : MemoryStore) (o : String)
    (hopen : (planStrategy tryOutcome).opening = some o) (hne : o ≠ "") :
    ((updatePlayerStrategy playerColor moveCount tryOutcome s).mem playerColor).opening =
      (if optStrTruthy ((s.mem playerColor).opening) = false ∨ moveCount < 10
       then some (extractOpeningName o)
       else (s.mem playerColor).opening) := by
  simp only [updatePlayerStrategy, hopen]
  by_cases hcond : optStrTruthy ((s.mem playerColor).opening) = false ∨ moveCount < 10
  · have hif : (if o ≠ "" ∧ (optStrTruthy ((s.mem playerColor).opening) = false ∨ moveCount < 10)
        then setOpening playerColor o s else s) = setOpening playerColor o s :=
      if_pos ⟨hne, hcond⟩
    rw [hif, if_pos hcond]
    by_cases h2 : (planStrategy tryOutcome).shortTermGoals.length > 0 <;>
      by_cases h3 : (planStrategy tryOutcome).longTermGoals.length > 0 <;>
        by_cases h4 : (planStrategy tryOutcome).reflection ≠ "" <;>
          simp [h2, h3, h4]
  · have hif : (if o ≠ "" ∧ (optStrTruthy ((s.mem playerColor).opening) = false ∨ moveCount < 10)
        then setOpening playerColor o s else s) = s :=
      if_neg (fun hc => hcond hc.2)
    rw [hif, if_neg hcond]
    by_cases h2 : (planStrategy tryOutcome).shortTermGoals.length > 0 <;>
      by_cases h3 : (planStrategy tryOutcome).longTermGoals.length > 0 <;>
        by_cases h4 : (planStrategy tryOutcome).reflection ≠ "" <;>
          simp [h2, h3, h4]

/-- C4 witness: an opening stored at half-move count 2 survives a
different planner opening at count 12 and is replaced at count 8. -/
theorem updatePlayerStrategy_opening_lock_witness :
    ((updatePlayerStrategy Color.white 2 (plannerResult "Ruy Lopez")
        initMemoryStore).mem Color.white).opening = some "Ruy Lopez"
    ∧ ((updatePlayerStrategy Color.white 12 (plannerResult "Sicilian Defense")
        (updatePlayerStrategy Color.white 2 (plannerResult "Ruy Lopez")
          initMemoryStore)).mem Color.white).opening = some "Ruy Lopez"
    ∧ ((updatePlayerStrategy Color.white 8 (plannerResult "Sicilian Defense")
        (updatePlayerStrategy Color.white 2 (plannerResult "Ruy Lopez")
          initMemoryStore)).mem Color.white).opening = some "Sicilian Defense" := by
  refine ⟨?_, ?_, ?_⟩
  · rw [updatePlayerStrategy_opening_lock Color.white 2 (plannerResult "Ruy Lopez")
      initMemoryStore "Ruy Lopez" rfl (by decide)]
    decide
  · rw [updatePlayerStrategy_opening_lock Color.white 12 (plannerResult "Sicilian Defense")
      (updatePlayerStrategy Color.white 2 (plannerResult "Ruy Lopez") initMemoryStore)
      "Sicilian Defense" rfl (by decide)]
    decide
  · rw [updatePlayerStrategy_opening_lock Color.white 8 (plannerResult "Sicilian Defense")
      (updatePlayerStrategy Color.white 2 (plannerResult "Ruy Lopez") initMemoryStore)
      "Sicilian Defense" rfl (by decide)]
    decide

/-- C9: on a thrown planning call or parse, planStrategy resolves with
the error result, which carries no opening, empty goal lists and a
reflection stating an error occurred; updatePlayerStrategy absorbs the
failure, acting on memory only by appending that reflection, so move
generation proceeds without a throw; and on any outcome whose goal
lists are empty the stored goal lists and their stamps are left
untouched. -/
theorem planStrategy_failure_recovery (playerColor : Color) (moveCount : Nat) (s : MemoryStore) :
    planStrategy (Except.error ()) = errorStrategyResult
    ∧ errorStrategyResult.opening = none
    ∧ errorStrategyResult.shortTermGoals = []
    ∧ errorStrategyResult.longTermGoals = []
    ∧ errorStrategyResult.reflection =
        "Error in strategic planning. Proceeding with existing strategy."
    ∧ updatePlayerStrategy playerColor moveCount (Except.error ()) s =
        addReflection playerColor
          "Error in strategic planning. Proceeding with existing strategy." s
    ∧ (∀ tryOutcome : Except Unit StrategyResult,
        (planStrategy tryOutcome).shortTermGoals = [] →
        ((updatePlayerStrategy playerColor moveCount tryOutcome s).mem
            playerColor).shortTermGoals = (s.mem playerColor).shortTermGoals
        ∧ ((updatePlayerStrategy playerColor moveCount tryOutcome s).mem
            playerColor).lastUpdatedShortTerm = (s.mem playerColor).lastUpdatedShortTerm)
    ∧ (∀ tryOutcome : Except Unit StrategyResult,
        (planStrategy tryOutcome).longTermGoals = [] →
        ((updatePlayerStrategy playerColor moveCount tryOutcome s).mem
            playerColor).longTermGoals = (s.mem playerColor).longTermGoals
        ∧ ((updatePlayerStrategy playerColor moveCount tryOutcome s).mem
            playerColor).lastUpdatedLongTerm = (s.mem playerColor).lastUpdatedLongTerm) := by
  refine ⟨rfl, rfl, rfl, rfl, rfl, rfl, ?_, ?_⟩
  · intro t ht
    rcases ho : (planStrategy t).opening with _ | o <;>
      by_cases h3 : (planStrategy t).longTermGoals.length > 0 <;>
        by_cases h4 : (planStrategy t).reflection ≠ "" <;>
          simp only [updatePlayerStrategy, ho, ht] <;>
            constructor <;> simp [h3, h4]
  · intro t ht
    rcases ho : (planStrategy t).opening with _ | o <;>
      by_cases h2 : (planStrategy t).shortTermGoals.length > 0 <;>
        by_cases h4 : (planStrategy t).reflection ≠ "" <;>
          simp only [updatePlayerStrategy, ho, ht] <;>
            constructor <;> simp [h2, h4]

/-- C9 witness: a failing planner call leaves the store changed only by
the appended error reflection. -/
theorem planStrategy_failure_recovery_witness :
    updatePlayerStrategy Color.white 0 (Except.error ()) initMemoryStore =
      addReflection Color.white
        "Error in strategic planning. Proceeding with existing strategy." initMemoryStore :=
  (planStrategy_failure_recovery Color.white 0 initMemoryStore).2.2.2.2.2.1

/-- A heap read of a reflection array is bounded when every array in
the heap is. -/
theorem getStr_length_le {s : MemoryStore} (h5 : ∀ l ∈ s.heap.strArrays, l.length ≤ 5)
    (r : Nat) : (s.heap.getStr r).length ≤ 5 := by
  unfold Heap.getStr
  by_cases hr : r < s.heap.strArrays.length
  · rw [List.getD_eq_getElem _ _ hr]
    exact h5 _ (List.getElem_mem hr)
  · rw [List.getD_eq_default _ _ (Nat.le_of_not_lt hr)]
    simp

/-- The initial store satisfies the invariant. -/
theorem storeInv_init : StoreInv initMemoryStore := by
  refine ⟨rfl, rfl, rfl, rfl, ?_, ?_, ?_, ?_⟩ <;> simp [initMemoryStore, goalsBounded,
    initialMemoryDef]

/-- Every memoryService call preserves the invariant. -/
theorem storeInv_applyMemOp (op : MemOp) (s : MemoryStore) (h : StoreInv s) :
    StoreInv (applyMemOp op s) := by
  obtain ⟨h1, h2, h3, h4, h5, h6, h7, h8⟩ := h
  cases op with
  | updMoveHistory c mv =>
      exact ⟨h1, h2, h3, h4, h5, h6, h7, h8⟩
  | setOpen c o =>
      cases c <;> exact ⟨h1, h2, h3, h4, h5, h6, h7, h8⟩
  | updShort c g n =>
      cases c
      · exact ⟨h1, h2, h3, h4, h5, ⟨List.length_take_le 3 g, h6.2⟩, h7, h8⟩
      · exact ⟨h1, h2, h3, h4, h5, h6, ⟨List.length_take_le 3 g, h7.2⟩, h8⟩
  | updLong c g n =>
      cases c
      · exact ⟨h1, h2, h3, h4, h5, ⟨h6.1, List.length_take_le 3 g⟩, h7, h8⟩
      · exact ⟨h1, h2, h3, h4, h5, h6, ⟨h7.1, List.length_take_le 3 g⟩, h8⟩
  | addRefl c r =>
      refine ⟨?_, h2, h3, h4, ?_, h6, h7, h8⟩
      · show ((s.heap.setStr ((s.mem c).reflectionRef) _).strArrays).length = 1
        unfold Heap.setStr
        rw [List.length_set]
        exact h1
      · intro l hl
        have hold : (s.heap.getStr ((s.mem c).reflectionRef)).length ≤ 5 := getStr_length_le h5 _
        have hl2 : (s.heap.getStr ((s.mem c).reflectionRef) ++ [r]).length =
            (s.heap.getStr ((s.mem c).reflectionRef)).length + 1 := by simp
        rcases List.mem_or_eq_of_mem_set hl with hmem | heq
        · exact h5 _ hmem
        · subst heq
          by_cases hlen :
              (s.heap.getStr ((s.mem c).reflectionRef) ++ [r]).length > 5
          · rw [if_pos hlen, List.length_tail, hl2]
            omega
          · rw [if_neg hlen]
            rw [hl2] at hlen
            omega
  | storeEvals c e =>
      cases c <;> exact ⟨h1, h2, h3, h4, h5, h6, h7, h8⟩
  | reset =>
      exact ⟨h1, h4, h4, h4, h5, h8, h8, h8⟩

/-- A sequence of memoryService calls preserves the invariant. -/
theorem storeInv_applyMemOps (ops : List MemOp) (s : MemoryStore) (h : StoreInv s) :
    StoreInv (applyMemOps ops s) := by
  induction ops generalizing s with
  | nil => exact h
  | cons op rest ih => exact ih _ (storeInv_applyMemOp op s h)

/-- Reading back the reflection array just written at slot 0. -/
theorem getStr_setStr_zero (h : Heap) (hlen : 0 < h.strArrays.length) (v : List String) :
    (h.setStr 0 v).getStr 0 = v := by
  unfold Heap.setStr Heap.getStr
  have hlt : (0 : Nat) < (h.strArrays.set 0 v).length := by
    rw [List.length_set]
    exact hlen
  rw [List.getD_eq_getElem _ _ hlt]
  exact List.getElem_set_self _

/-- Under the invariant, addReflection appends the new reflection and,
when the queue already holds five entries, evicts the oldest. -/
theorem addReflection_fifo (c : Color) (r : String) (s : MemoryStore) (h : StoreInv s) :
    (readMemory (addReflection c r s) c).reflection =
      (if (readMemory s c).reflection.length ≥ 5
       then (readMemory s c).reflection.tail ++ [r]
       else (readMemory s c).reflection ++ [r]) := by
  obtain ⟨h1, h2, h3, h4, h5, h6, h7, h8⟩ := h
  have href : (s.mem c).reflectionRef = 0 := by
    cases c
    · exact h2
    · exact h3
  have hbound : (s.heap.getStr 0).length ≤ 5 := getStr_length_le h5 0
  have hmemnew : (addReflection c r s).mem c = s.mem c := by
    cases c <;> rfl
  have hheap : (addReflection c r s).heap =
      s.heap.setStr 0
        (if (s.heap.getStr 0 ++ [r]).length > 5 then (s.heap.getStr 0 ++ [r]).tail
         else s.heap.getStr 0 ++ [r]) := by
    simp only [addReflection, href]
  simp only [readMemory, hmemnew, hheap, href]
  rw [getStr_setStr_zero _ (by rw [h1]; exact Nat.zero_lt_one)]
  by_cases hge : (s.heap.getStr 0).length ≥ 5
  · rw [if_pos (by simp; omega), if_pos hge]
    obtain ⟨a, t, hat⟩ : ∃ a t, s.heap.getStr 0 = a :: t := by
      cases hx : s.heap.getStr 0 with
      | nil =>
          rw [hx] at hge
          simp at hge
      | cons a t => exact ⟨a, t, rfl⟩
    rw [hat]
    rfl
  · rw [if_neg (by simp; omega), if_neg hge]

/-- C5: after any sequence of memoryService calls starting from the
fresh store, each colour observes at most three short-term goals, at
most three long-term goals and at most five reflections, and a further
addReflection appends to the reflections queue, evicting the oldest
entry exactly when the queue already holds five. -/
theorem memory_bounds_fifo (ops : List MemOp) (c : Color) (r : String) :
    (readMemory (applyMemOps ops initMemoryStore) c).shortTermGoals.length ≤ 3
    ∧ (readMemory (applyMemOps ops initMemoryStore) c).longTermGoals.length ≤ 3
    ∧ (readMemory (applyMemOps ops initMemoryStore) c).reflection.length ≤ 5
    ∧ (readMemory (addReflection c r (applyMemOps ops initMemoryStore)) c).reflection =
        (if (readMemory (applyMemOps ops initMemoryStore) c).reflection.length ≥ 5
         then (readMemory (applyMemOps ops initMemoryStore) c).reflection.tail ++ [r]
         else (readMemory (applyMemOps ops initMemoryStore) c).reflection ++ [r]) := by
  have hinv := storeInv_applyMemOps ops initMemoryStore storeInv_init
  obtain ⟨h1, h2, h3, h4, h5, h6, h7, h8⟩ := hinv
  refine ⟨?_, ?_, ?_, addReflection_fifo c r _ ⟨h1, h2, h3, h4, h5, h6, h7, h8⟩⟩
  · show ((applyMemOps ops initMemoryStore).mem c).shortTermGoals.length ≤ 3
    cases c
    · exact h6.1
    · exact h7.1
  · show ((applyMemOps ops initMemoryStore).mem c).longTermGoals.length ≤ 3
    cases c
    · exact h6.2
    · exact h7.2
  · show ((applyMemOps ops initMemoryStore).heap.getStr _).length ≤ 5
    exact getStr_length_le h5 _

/-- C6 at the failing input: because white, black and initialMemory
share the moveHistory array through the shallow spread, a move
committed before a reset is still visible in both colour slots after
resetMemory, so a single reset does not restore the empty memory
state; a second reset does return the same state as the first, and
that part of the claim holds. -/
theorem resetMemory_not_empty_bug :
    (readMemory (resetMemory (updateMoveHistory Color.white pawnE2E4
        (resetMemory initMemoryStore))) Color.white).moveHistory = [pawnE2E4]
    ∧ (readMemory (resetMemory (updateMoveHistory Color.white pawnE2E4
        (resetMemory initMemoryStore))) Color.black).moveHistory = [pawnE2E4]
    ∧ resetMemory (resetMemory (updateMoveHistory Color.white pawnE2E4
        (resetMemory initMemoryStore))) =
      resetMemory (updateMoveHistory Color.white pawnE2E4 (resetMemory initMemoryStore)) :=
  ⟨rfl, rfl, rfl⟩

/-- C10 at the failing input: right after a reset, appending a move to
the white moveHistory also appears in the black moveHistory and
pieceActivity, and a white reflection appears in the black reflections,
because the colour slots hold references to the same arrays; black
started empty before the write. -/
theorem crossColor_sharing_bug :
    (readMemory (updateMoveHistory Color.white pawnE2E4 (resetMemory initMemoryStore))
        Color.black).moveHistory = [pawnE2E4]
    ∧ (readMemory (updateMoveHistory Color.white pawnE2E4 (resetMemory initMemoryStore))
        Color.black).pieceActivity = [("pe2", 1)]
    ∧ (readMemory (addReflection Color.white "I develop the knight first"
        (resetMemory initMemoryStore)) Color.black).reflection = ["I develop the knight first"]
    ∧ (readMemory (resetMemory initMemoryStore) Color.black).moveHistory = [] :=
  ⟨rfl, rfl, rfl, rfl⟩

end AiChess
